import Mathlib

/-!
Verification development for the TOS Buddy website sources
(src/web/app/pages/index.tsx and the WebsiteTileGrid component).

The React/Next.js code is shallowly embedded: JSX output is modelled as a
tree of `Node` values, JavaScript exceptions as `Except String`, nullable
values as `Option`, and the JavaScript builtins the code calls
(JSON.parse, Object.entries, the URL constructor, array map, React child
rendering, date formatting) as executable Lean functions whose behaviour
is documented at each definition.
-/

namespace TosBuddy

/-- A rendered document node: either a text leaf or an element with a tag,
a list of string attributes and a list of children.  JSX elements of the
source are mapped one to one onto `elem` nodes; component tags such as
Link, Nav or Footer keep their component name as the tag. -/
inductive Node where
  | text : String → Node
  | elem : String → List (String × String) → List Node → Node

mutual

/-- Number of elements with the given tag in a node tree. -/
def countElems (tag : String) : Node → Nat
  | .text _ => 0
  | .elem t _ cs => (if t == tag then 1 else 0) + countElemsList tag cs

/-- Number of elements with the given tag in a list of node trees. -/
def countElemsList (tag : String) : List Node → Nat
  | [] => 0
  | c :: cs => countElems tag c + countElemsList tag cs

end

mutual

/-- Whether some node in the tree satisfies the boolean check. -/
def containsNode (p : Node → Bool) : Node → Bool
  | .text s => p (.text s)
  | .elem t a cs => p (.elem t a cs) || containsNodeList p cs

/-- Whether some node in one of the trees satisfies the boolean check. -/
def containsNodeList (p : Node → Bool) : List Node → Bool
  | [] => false
  | c :: cs => containsNode p c || containsNodeList p cs

end

/-- Whether the tree has a text leaf exactly equal to the given string. -/
def containsText (needle : String) (n : Node) : Bool :=
  containsNode (fun m => match m with | .text s => s == needle | _ => false) n

mutual

/-- The href attribute values of all Link elements in the tree, in
document order.  Used to enumerate the link cards of the tile grid. -/
def collectLinkHrefs : Node → List String
  | .text _ => []
  | .elem t attrs cs =>
    (if t == "Link" then
      attrs.filterMap (fun a => if a.1 == "href" then some a.2 else none)
     else []) ++ collectLinkHrefsList cs

/-- The href attribute values of all Link elements in a list of trees. -/
def collectLinkHrefsList : List Node → List String
  | [] => []
  | c :: cs => collectLinkHrefs c ++ collectLinkHrefsList cs

end

/-! ## A model of JavaScript JSON values and of JSON.parse

The detail page stores an analysis result as a serialized JSON string and
decodes it at render time with JSON.parse inside a try/catch.  `JsValue`
is the value domain of JSON.parse; `jsonParse` is an executable model of
the builtin parser, faithful to the JSON grammar: whitespace handling,
null/true/false, numbers (no leading zeros, optional fraction and
exponent), strings with escape sequences, arrays and objects with
last-occurrence-wins duplicate keys.  Numbers keep their source lexeme:
no claim inspects numeric values.  Lone surrogate escapes, which Lean
strings cannot carry, are mapped to the replacement character. -/
inductive JsValue where
  | null
  | bool (b : Bool)
  | num (lexeme : String)
  | str (s : String)
  | arr (elems : List JsValue)
  | obj (fields : List (String × JsValue))

/-- Opening curly brace character. -/
def lbrace : Char := Char.ofNat 123

/-- Closing curly brace character. -/
def rbrace : Char := Char.ofNat 125

/-- JSON insignificant whitespace: space, tab, line feed and carriage
return, recognised by code point. -/
def isJsonWs (c : Char) : Bool :=
  [32, 9, 10, 13].contains c.toNat

/-- Drop leading JSON whitespace. -/
def skipWs (cs : List Char) : List Char :=
  cs.dropWhile isJsonWs

/-- Numeric value of a hexadecimal digit character, recognised by code
point, if the character is one. -/
def hexVal (c : Char) : Option Nat :=
  let n := c.toNat
  if 48 ≤ n && n ≤ 57 then some (n - 48)
  else if 97 ≤ n && n ≤ 102 then some (n - 87)
  else if 65 ≤ n && n ≤ 70 then some (n - 55)
  else none

/-- Four hexadecimal digits of a unicode escape. -/
def parseHex4 : List Char → Option (Nat × List Char)
  | a :: b :: c :: d :: rest =>
    match hexVal a, hexVal b, hexVal c, hexVal d with
    | some x, some y, some z, some w => some (((x * 16 + y) * 16 + z) * 16 + w, rest)
    | _, _, _, _ => none
  | _ => none

/-- Character denoted by a unicode escape; surrogate code points, which a
Lean character cannot hold, become the replacement character. -/
def uniChar (n : Nat) : Char :=
  if 0xD800 ≤ n && n ≤ 0xDFFF then Char.ofNat 0xFFFD else Char.ofNat n

/-- JSON string body after the opening quote: returns the decoded string
and the input remaining after the closing quote.  The fuel argument is
instantiated with the input length, which is always sufficient. -/
def parseJString : Nat → List Char → List Char → Except String (String × List Char)
  | 0, _, _ => .error "Unterminated string"
  | Nat.succ _, _, [] => .error "Unterminated string"
  | Nat.succ f, acc, c :: rest =>
    if c == '"' then .ok (String.mk acc.reverse, rest)
    else if c == '\\' then
      match rest with
      | [] => .error "Unterminated string"
      | e :: rest2 =>
        if e == '"' then parseJString f ('"' :: acc) rest2
        else if e == '\\' then parseJString f ('\\' :: acc) rest2
        else if e == '/' then parseJString f ('/' :: acc) rest2
        else if e == 'b' then parseJString f (Char.ofNat 8 :: acc) rest2
        else if e == 'f' then parseJString f (Char.ofNat 12 :: acc) rest2
        else if e == 'n' then parseJString f ('\n' :: acc) rest2
        else if e == 'r' then parseJString f ('\r' :: acc) rest2
        else if e == 't' then parseJString f ('\t' :: acc) rest2
        else if e == 'u' then
          match parseHex4 rest2 with
          | some (n, rest3) => parseJString f (uniChar n :: acc) rest3
          | none => .error "Bad Unicode escape"
        else .error "Bad escaped character"
    else if c.toNat < 32 then .error "Bad control character in string literal"
    else parseJString f (c :: acc) rest

/-- Longest digit run and the remaining input. -/
def takeDigits (cs : List Char) : List Char × List Char :=
  (cs.takeWhile Char.isDigit, cs.dropWhile Char.isDigit)

/-- JSON number: optional minus, integer part without leading zeros,
optional fraction, optional exponent.  Keeps the lexeme. -/
def parseNumber (cs : List Char) : Except String (JsValue × List Char) :=
  let signed := match cs with | '-' :: t => (['-'], t) | _ => (([] : List Char), cs)
  let (intDigits, rest1) := takeDigits signed.2
  if intDigits.isEmpty then .error "Unexpected token in number"
  else if intDigits.length > 1 && intDigits.headD '0' == '0' then
    .error "Unexpected number with leading zero"
  else
    let fracStep : Except String (List Char × List Char) :=
      match rest1 with
      | '.' :: t =>
        let (ds, r) := takeDigits t
        if ds.isEmpty then .error "Unterminated fractional number"
        else .ok ('.' :: ds, r)
      | _ => .ok ([], rest1)
    match fracStep with
    | .error e => .error e
    | .ok (fracChars, rest2) =>
      let expStep : Except String (List Char × List Char) :=
        match rest2 with
        | e :: t =>
          if e == 'e' || e == 'E' then
            let signExp := match t with
              | s :: t2 => if s == '+' || s == '-' then ([s], t2) else (([] : List Char), t)
              | [] => (([] : List Char), ([] : List Char))
            let (ds, r) := takeDigits signExp.2
            if ds.isEmpty then .error "Exponent part is missing a number"
            else .ok (e :: (signExp.1 ++ ds), r)
          else .ok ([], rest2)
        | [] => .ok ([], [])
      match expStep with
      | .error e => .error e
      | .ok (expChars, rest3) =>
        .ok (.num (String.mk (signed.1 ++ intDigits ++ fracChars ++ expChars)), rest3)

/-- Replace the value of an existing key, else append: JSON.parse keeps
the first position of a duplicate object key but its last value. -/
def insertKey (fields : List (String × JsValue)) (k : String) (v : JsValue) :
    List (String × JsValue) :=
  match fields with
  | [] => [(k, v)]
  | (k0, v0) :: rest =>
    if k0 == k then (k0, v) :: rest else (k0, v0) :: insertKey rest k v

mutual

/-- One JSON value starting at the given input (leading whitespace
allowed); returns the value and the remaining input.  Fueled recursion:
`jsonParse` supplies fuel proportional to the input length, which always
suffices, so exhausted fuel can only be reported on malformed input. -/
def parseValue : Nat → List Char → Except String (JsValue × List Char)
  | 0, _ => .error "Too much nesting"
  | Nat.succ f, cs =>
    match skipWs cs with
    | [] => .error "Unexpected end of JSON input"
    | c :: rest =>
      if c == lbrace then parseObjBody f rest
      else if c == '[' then parseArrBody f rest
      else if c == '"' then
        match parseJString (rest.length + 1) [] rest with
        | .ok (s, rest2) => .ok (.str s, rest2)
        | .error e => .error e
      else if c == 'n' then
        match rest with
        | 'u' :: 'l' :: 'l' :: rest2 => .ok (.null, rest2)
        | _ => .error "Unexpected token"
      else if c == 't' then
        match rest with
        | 'r' :: 'u' :: 'e' :: rest2 => .ok (.bool true, rest2)
        | _ => .error "Unexpected token"
      else if c == 'f' then
        match rest with
        | 'a' :: 'l' :: 's' :: 'e' :: rest2 => .ok (.bool false, rest2)
        | _ => .error "Unexpected token"
      else if c == '-' || c.isDigit then parseNumber (c :: rest)
      else .error "Unexpected token"

/-- Array body after the opening bracket. -/
def parseArrBody (f : Nat) (cs : List Char) : Except String (JsValue × List Char) :=
  match f with
  | 0 => .error "Too much nesting"
  | Nat.succ f1 =>
    match skipWs cs with
    | ']' :: rest => .ok (.arr [], rest)
    | other => parseElems f1 other []

/-- Array elements, accumulating parsed values in order. -/
def parseElems : Nat → List Char → List JsValue → Except String (JsValue × List Char)
  | 0, _, _ => .error "Too much nesting"
  | Nat.succ f, cs, acc =>
    match parseValue f cs with
    | .error e => .error e
    | .ok (v, rest) =>
      match skipWs rest with
      | ',' :: rest2 => parseElems f rest2 (acc ++ [v])
      | ']' :: rest2 => .ok (.arr (acc ++ [v]), rest2)
      | _ => .error "Expected comma or closing bracket after array element"

/-- Object body after the opening brace. -/
def parseObjBody (f : Nat) (cs : List Char) : Except String (JsValue × List Char) :=
  match f with
  | 0 => .error "Too much nesting"
  | Nat.succ f1 =>
    match skipWs cs with
    | c :: rest =>
      if c == rbrace then .ok (.obj [], rest)
      else parseFields f1 (c :: rest) []
    | [] => .error "Unexpected end of JSON input"

/-- Object members, accumulating key/value pairs with last-wins keys. -/
def parseFields : Nat → List Char → List (String × JsValue) →
    Except String (JsValue × List Char)
  | 0, _, _ => .error "Too much nesting"
  | Nat.succ f, cs, acc =>
    match skipWs cs with
    | '"' :: rest =>
      match parseJString (rest.length + 1) [] rest with
      | .error e => .error e
      | .ok (k, rest2) =>
        match skipWs rest2 with
        | ':' :: rest3 =>
          match parseValue f rest3 with
          | .error e => .error e
          | .ok (v, rest4) =>
            match skipWs rest4 with
            | ',' :: rest5 => parseFields f rest5 (insertKey acc k v)
            | c :: rest5 =>
              if c == rbrace then .ok (.obj (insertKey acc k v), rest5)
              else .error "Expected comma or closing brace after property value"
            | [] => .error "Unexpected end of JSON input"
        | _ => .error "Expected colon after property name"
    | _ => .error "Expected property name"

end

/-- Model of the JSON.parse builtin as called by the detail page: parse
one JSON document, requiring only whitespace after it.  An `error` result
stands for the exception JSON.parse would throw. -/
def jsonParse (s : String) : Except String JsValue :=
  match parseValue (3 * s.data.length + 8) s.data with
  | .error e => .error e
  | .ok (v, rest) =>
    if (skipWs rest).isEmpty then .ok v
    else .error "Unexpected non-whitespace character after JSON data"

/-! ## JavaScript runtime semantics used by the renderer -/

/-- Whether a number lexeme denotes zero: every digit of its mantissa
(the part before any exponent marker) is zero. -/
def numLexemeZero (lex : String) : Bool :=
  ((lex.data.takeWhile (fun c => !(c == 'e' || c == 'E'))).filter Char.isDigit).all
    (fun c => c == '0')

/-- JavaScript truthiness of a JSON value: null, false, zero and the
empty string are falsy; every object and array is truthy. -/
def JsValue.truthy : JsValue → Bool
  | .null => false
  | .bool b => b
  | .str s => !(s == "")
  | .num lex => !(numLexemeZero lex)
  | .arr _ => true
  | .obj _ => true

/-- Property access on a JavaScript value, as in the field reads of the
decoded content: a field of an object, undefined (none) on every other
value.  The renderer accesses properties only of a value already checked
to be truthy, so the throwing access on null or undefined cannot arise
at these call sites. -/
def JsValue.get : JsValue → String → Option JsValue
  | .obj fields, k => fields.lookup k
  | _, _ => none

/-- Model of Object.entries applied to a possibly-undefined value:
throws on undefined and null, yields the own enumerable entries of an
object, index/value pairs of an array, index/character pairs of a string
and nothing for numbers and booleans. -/
def jsObjectEntries : Option JsValue → Except String (List (String × JsValue))
  | none => .error "Cannot convert undefined or null to object"
  | some .null => .error "Cannot convert undefined or null to object"
  | some (.obj fields) => .ok fields
  | some (.arr xs) => .ok (xs.enum.map (fun p => (toString p.1, p.2)))
  | some (.str s) =>
    .ok (s.data.enum.map (fun p => (toString p.1, JsValue.str (String.singleton p.2))))
  | some (.num _) => .ok []
  | some (.bool _) => .ok []

mutual

/-- Model of rendering a JavaScript value as a React child: strings and
numbers become text, null and booleans render nothing, arrays are
flattened, and a plain object makes React throw. -/
def reactChild : JsValue → Except String (List Node)
  | .str s => .ok [.text s]
  | .num lex => .ok [.text lex]
  | .bool _ => .ok []
  | .null => .ok []
  | .obj _ => .error "Objects are not valid as a React child"
  | .arr xs => reactChildList xs

/-- React child rendering of a list of values, flattened in order. -/
def reactChildList : List JsValue → Except String (List Node)
  | [] => .ok []
  | x :: xs =>
    match reactChild x, reactChildList xs with
    | .ok a, .ok b => .ok (a ++ b)
    | .error e, _ => .error e
    | _, .error e => .error e

end

/-- React child rendering of a possibly-undefined value: undefined
renders nothing. -/
def reactChildOpt : Option JsValue → Except String (List Node)
  | none => .ok []
  | some v => reactChild v

/-- JavaScript truthiness of an optional string field: null, undefined
and the empty string are falsy. -/
def truthyOptStr (o : Option String) : Bool := !(o.getD "" == "")

/-! ## Data rows

The row types the page receives from the data client, restricted to the
columns this code reads. -/

/-- Row of the websites table as consumed by the page (type WebsiteRow in
the source). -/
structure WebsiteRow where
  id : Nat
  site_name : String
  website_description : String
  logo_svg : Option String
  url : String
  category : Option String
  last_crawled : Option String

/-- Row of the terms_of_service table as consumed by the page (type
TermsOfServiceRow in the source). -/
structure TermsOfServiceRow where
  id : Nat
  website_id : Nat
  tos_url : Option String
  simplified_content : Option String

/-! ## Summary payload parsing (source lines 89 to 97) -/

/-- The guarded JSON.parse of the simplified_content field inside the
try/catch of WebsitePage: a falsy field (absent or empty) is skipped and
a parse failure is swallowed, leaving the content null in both cases. -/
def parseSimplifiedContent : Option String → Option JsValue
  | none => none
  | some s =>
    if s == "" then none
    else
      match jsonParse s with
      | .ok v => some v
      | .error _ => none

/-! ## The detail page renderer (WebsitePage) -/

/-- The placeholder paragraph of the overview column. -/
def loadingPlaceholder : Node := .elem "p" [] [.text "Loading content..."]

/-- The prose wrapper div of the overview column. -/
def proseDiv (cs : List Node) : Node := .elem "div" [("className", "prose")] cs

/-- One summary entry paragraph: a strong label followed by the rendered
value. -/
def summaryEntryNode (k : String) (valueChildren : List Node) : Node :=
  .elem "p" [("key", k)]
    ([Node.elem "strong" [] [.text k, .text ":"], .text " "] ++ valueChildren)

/-- The mapped summary entries, in entry order; rendering stops at the
first value React cannot render. -/
def renderSummaryEntries : List (String × JsValue) → Except String (List Node)
  | [] => .ok []
  | (k, v) :: rest =>
    match reactChild v with
    | .error e => .error e
    | .ok cs =>
      match renderSummaryEntries rest with
      | .error e => .error e
      | .ok ns => .ok (summaryEntryNode k cs :: ns)

/-- One danger list item with its index key. -/
def dangerItemNode (i : Nat) (cs : List Node) : Node :=
  .elem "li" [("key", toString i)] cs

/-- The mapped danger list items, in order. -/
def renderDangerItems : Nat → List JsValue → Except String (List Node)
  | _, [] => .ok []
  | i, v :: rest =>
    match reactChild v with
    | .error e => .error e
    | .ok cs =>
      match renderDangerItems (i + 1) rest with
      | .error e => .error e
      | .ok ns => .ok (dangerItemNode i cs :: ns)

/-- Model of the array map call on the potentialDangers field: calling
map on undefined or on a non-array value throws. -/
def renderDangers : Option JsValue → Except String (List Node)
  | some (.arr xs) => renderDangerItems 0 xs
  | _ => .error "map is not a function"

/-- The overview column content (prose div, source lines 128 to 147):
when the parsed content is truthy, renders the summary entries through
Object.entries, the danger list through array map and the assessment as
a React child, each faithful to the throwing behaviour of the
corresponding JavaScript operation; otherwise the loading placeholder. -/
def overviewSection : Option JsValue → Except String Node
  | none => .ok (proseDiv [loadingPlaceholder])
  | some v =>
    if v.truthy then
      match jsObjectEntries (v.get "summary") with
      | .error e => .error e
      | .ok entries =>
        match renderSummaryEntries entries with
        | .error e => .error e
        | .ok summaryNodes =>
          match renderDangers (v.get "potentialDangers") with
          | .error e => .error e
          | .ok dangerItems =>
            match reactChildOpt (v.get "overallAssessment") with
            | .error e => .error e
            | .ok assessmentChildren =>
              .ok (proseDiv
                ([Node.elem "h3" [] [.text "Summary"]] ++ summaryNodes
                  ++ [Node.elem "h3" [] [.text "Potential Dangers"],
                      Node.elem "ul" [] dangerItems,
                      Node.elem "h3" [] [.text "Overall Assessment"],
                      Node.elem "p" [] assessmentChildren]))
    else .ok (proseDiv [loadingPlaceholder])

/-- Scheme characters after the leading letter of a URL scheme. -/
def isSchemeChar (c : Char) : Bool :=
  c.isAlpha || c.isDigit || c == '+' || c == '-' || c == '.'

/-- Input after the scheme and its colon, when the input continues a
valid scheme. -/
def afterScheme : List Char → Option (List Char)
  | [] => none
  | c :: cs => if c == ':' then some cs else if isSchemeChar c then afterScheme cs else none

/-- Split a leading URL scheme: a letter followed by scheme characters
and a colon. -/
def splitScheme (cs : List Char) : Option (List Char) :=
  match cs with
  | [] => none
  | c :: rest => if c.isAlpha then afterScheme rest else none

/-- Drop a userinfo part up to the last at-sign of an authority. -/
def dropUserinfo (cs : List Char) : List Char :=
  if cs.contains '@' then (cs.reverse.takeWhile (fun c => !(c == '@'))).reverse else cs

/-- Model of new URL(url).host as called on source line 158: none models
the TypeError the URL constructor throws on input without a valid
scheme.  For scheme://authority the host is the authority up to the
first slash, question mark or hash, without userinfo and lowercased; an
empty authority is rejected; for other inputs the host is empty. -/
def urlHost (url : String) : Option String :=
  match splitScheme url.data with
  | none => none
  | some rest =>
    match rest with
    | '/' :: '/' :: authRest =>
      let auth := authRest.takeWhile (fun c => !(c == '/' || c == '?' || c == '#'))
      if auth.isEmpty then none
      else some (String.mk ((dropUserinfo auth).map Char.toLower))
    | _ => some ""

/-- Model of the new Date(value).toLocaleDateString() chain of source
line 179.  Date parsing and locale formatting are platform builtins
outside the repository; the model tags the raw timestamp as a
locale-formatted date, which is all the claims inspect. -/
def toLocaleDateString (s : String) : String :=
  "toLocaleDateString(" ++ s ++ ")"

/-- Row container class of the details panel. -/
def rowClass : String := "flex items-center justify-between py-2"

/-- Label class of the details panel rows. -/
def labelClass : String := "text-scale-900"

/-- Anchor class of the details panel links. -/
def detailLinkClass : String := "text-brand-900 transition-colors hover:text-brand-800"

/-- The Website row of the details panel: label plus an anchor to the
site URL whose text is the parsed host. -/
def websiteRowNode (url host : String) : Node :=
  .elem "div" [("className", rowClass)]
    [.elem "span" [("className", labelClass)] [.text "Website"],
     .elem "a"
       [("href", url), ("target", "_blank"), ("rel", "noreferrer"),
        ("className", detailLinkClass)]
       [.text host]]

/-- The Terms of Service row of the details panel: rendered for every
input, with the given link target. -/
def tosRowNode (href : String) : Node :=
  .elem "div" [("className", rowClass)]
    [.elem "span" [("className", labelClass)] [.text "Terms of Service"],
     .elem "a"
       [("href", href), ("target", "_blank"), ("rel", "noreferrer"),
        ("className", detailLinkClass)]
       [.elem "span" [("className", "flex items-center space-x-1")]
         [.elem "span" [] [.text "View"],
          .elem "IconExternalLink" [("size", "small")] []]]]

/-- The Category row of the details panel. -/
def categoryRowNode (c : String) : Node :=
  .elem "div" [("className", rowClass)]
    [.elem "span" [("className", labelClass)] [.text "Category"],
     .elem "span" [] [.text c]]

/-- The Last Crawled row of the details panel. -/
def lastCrawledRowNode (formatted : String) : Node :=
  .elem "div" [("className", rowClass)]
    [.elem "span" [("className", labelClass)] [.text "Last Crawled"],
     .elem "span" [] [.text formatted]]

/-- Link target of the Terms of Service row: the tos_url of the record
when present, else the empty string (the or-empty fallback of source
line 163). -/
def tosHref : Option TermsOfServiceRow → String
  | none => ""
  | some t => t.tos_url.getD ""

/-- The rows of the details panel, source lines 154 to 182: the Website
and Terms of Service rows unconditionally, then the Category and Last
Crawled rows guarded by truthiness of the respective field. -/
def detailRows (w : WebsiteRow) (tos : Option TermsOfServiceRow) (host : String) :
    List Node :=
  [websiteRowNode w.url host, tosRowNode (tosHref tos)]
    ++ (if truthyOptStr w.category then [categoryRowNode (w.category.getD "")] else [])
    ++ (if truthyOptStr w.last_crawled then
          [lastCrawledRowNode (toLocaleDateString (w.last_crawled.getD ""))]
        else [])

/-- The details column: heading plus the divided row list. -/
def detailsColumnNode (w : WebsiteRow) (tos : Option TermsOfServiceRow) (host : String) :
    Node :=
  .elem "div" []
    [.elem "h2" [("className", "text-scale-1200"),
                 ("style", "font-size: 1.5rem; margin-bottom: 1rem")]
       [.text "Details"],
     .elem "div" [("className", "divide-y text-scale-1200")] (detailRows w tos host)]

/-- The details column of the page: evaluating it runs the URL
constructor on the website URL, so it throws exactly when that URL does
not parse. -/
def detailsPanel (w : WebsiteRow) (tos : Option TermsOfServiceRow) : Except String Node :=
  match urlHost w.url with
  | none => .error "Invalid URL"
  | some host => .ok (detailsColumnNode w tos host)

/-- The layout wrapper of the second source file: optional navigation
header (shown by default), main content, optional footer (hidden by
default).  Omitted props are modelled as none, picking up the default
parameter values of the source.  The mount-time dark mode effect touches
only client storage and the document class, not the rendered tree, so it
does not appear in the model. -/
def Layout (hideHeader hideFooter : Option Bool) (children : List Node) : Node :=
  let hh := hideHeader.getD false
  let hf := hideFooter.getD true
  .elem "Fragment" []
    ((if !hh then [Node.elem "Nav" [] []] else [])
      ++ [Node.elem "div" [("className", "flex flex-col min-h-screen")]
            ([Node.elem "main" [("className", "flex-grow")] children]
              ++ (if !hf then
                    [Node.elem "div" [("className", "mt-auto")]
                      [Node.elem "Footer" [] []]]
                  else []))])

/-- The document head of the detail page. -/
def headNode (w : WebsiteRow) : Node :=
  .elem "Head" []
    [.elem "title" [] [.text (w.site_name ++ " | TOS Buddy")],
     .elem "meta" [("name", "description"), ("content", w.website_description)] []]

/-- The back link of the detail page. -/
def backLinkNode : Node :=
  .elem "Link"
    [("href", "/websites"),
     ("className",
      "flex cursor-pointer items-center text-scale-1200 transition-colors hover:text-scale-1000")]
    [.elem "IconChevronLeft" [("style", "padding: 0")] [], .text "Back"]

/-- The header of the detail page: optional logo image and the site name
heading. -/
def headerDiv (w : WebsiteRow) : Node :=
  .elem "div" [("className", "flex items-center space-x-4")]
    ((if truthyOptStr w.logo_svg then
        [Node.elem "img"
          [("src", w.logo_svg.getD ""), ("alt", w.site_name ++ " logo"),
           ("className", "h-10 w-10")] []]
      else [])
      ++ [Node.elem "h1" [("className", "h1"), ("style", "margin-bottom: 0")]
            [.text w.site_name]])

/-- The overview column wrapper: heading plus the prose content. -/
def overviewColumnNode (overview : Node) : Node :=
  .elem "div" [("className", "lg:col-span-3")]
    [.elem "h2" [("className", "text-scale-1200"),
                 ("style", "font-size: 1.5rem; margin-bottom: 1rem")]
       [.text "Overview"],
     overview]

/-- The full detail page tree around computed overview and details
columns, wrapped in the layout with both props omitted. -/
def pageNode (w : WebsiteRow) (overview details : Node) : Node :=
  .elem "Fragment" []
    [headNode w,
     Layout none none
       [.elem "SectionContainer" []
         [.elem "div"
            [("className", "col-span-12 mx-auto mb-2 max-w-5xl space-y-12 lg:col-span-2")]
            [backLinkNode, headerDiv w,
             .elem "div"
               [("className", "grid gap-3 space-y-16 lg:grid-cols-4 lg:space-y-0")]
               [overviewColumnNode overview, details]]]]]

/-- The not-found view rendered when the website prop is absent. -/
def notFoundNode : Node := .elem "NotFound" [] []

/-- The WebsitePage component, source lines 86 to 190: a missing website
renders the not-found view; otherwise the simplified content is parsed
under try/catch and the page tree is built, where evaluating the
overview column (Object.entries, array map, React children) and then the
details column (the URL constructor) can throw, in that evaluation
order.  An error result models an exception escaping the component. -/
def WebsitePage : Option WebsiteRow → Option TermsOfServiceRow → Except String Node
  | none, _ => .ok notFoundNode
  | some w, termsOfService =>
    match overviewSection
        (parseSimplifiedContent (termsOfService.bind (fun t => t.simplified_content))) with
    | .error e => .error e
    | .ok overview =>
      match detailsPanel w termsOfService with
      | .error e => .error e
      | .ok details => .ok (pageNode w overview details)

/-- Whether an embedded computation models a thrown JavaScript
exception. -/
def throws {α : Type} (x : Except String α) : Bool :=
  match x with
  | .error _ => true
  | .ok _ => false

/-! ## Static generation: path discovery (source lines 193 to 229) -/

/-- First-seen de-duplication with an accumulator of already kept
values: the order-preserving semantics of iterating a JavaScript Set
built from an array. -/
def dedupFirstAux : List String → List String → List String
  | _, [] => []
  | seen, a :: rest =>
    if seen.contains a then dedupFirstAux seen rest
    else a :: dedupFirstAux (a :: seen) rest

/-- First-seen de-duplication, keeping the first occurrence of every
value in order. -/
def dedupFirst (l : List String) : List String := dedupFirstAux [] l

/-- Whitespace removed by the trim builtin: the JSON whitespace plus the
vertical tab and the form feed. -/
def isTrimWs (c : Char) : Bool :=
  isJsonWs c || c.toNat == 11 || c.toNat == 12

/-- Model of the trim builtin called on each site name: remove leading
and trailing whitespace. -/
def jsTrim (s : String) : String :=
  String.mk ((s.data.dropWhile isTrimWs).reverse.dropWhile isTrimWs).reverse

/-- Outcome of the select of site_name in getStaticPaths: an error
object, a null data field, rows carrying the selected column, or a
thrown exception reaching the surrounding try/catch. -/
inductive WebsitesFetch where
  | fetchError (msg : String)
  | noData
  | rows (siteNames : List String)
  | threw (msg : String)

/-- Result of path discovery: the route keys (the slug each params
object of the source carries) and the fallback policy string. -/
structure PathsResult where
  paths : List String
  fallback : String

/-- getStaticPaths: on any fetch error, missing data or thrown exception
the route set is empty; otherwise each site name is trimmed, empty slugs
are filtered out and the slugs are de-duplicated first-seen through a
Set, always with the blocking fallback policy.  The params wrapper
objects of the source carry exactly one slug each, so the model keeps
the slug list. -/
def getStaticPaths : WebsitesFetch → PathsResult
  | .fetchError _ => { paths := [], fallback := "blocking" }
  | .noData => { paths := [], fallback := "blocking" }
  | .threw _ => { paths := [], fallback := "blocking" }
  | .rows names =>
    { paths := dedupFirst ((names.map jsTrim).filter (fun s => !(s == ""))),
      fallback := "blocking" }

/-! ## Static generation: per-route prop resolution (source lines 232 to 278) -/

/-- Outcome of a single-row fetch: a row, an error result (also covering
a null row, which the source treats identically), or a thrown exception
reaching the surrounding try/catch. -/
inductive FetchOne (α : Type) where
  | ok (row : α)
  | err (msg : String)
  | threw (msg : String)

/-- Result of prop resolution: the not-found signal, or a props bundle
with the website, the optional terms of service row and the revalidation
interval the bundle was tagged with (none when the returned object had
no revalidate field). -/
inductive StaticPropsResult where
  | notFound
  | props (website : WebsiteRow) (termsOfService : Option TermsOfServiceRow)
      (revalidate : Option Nat)

/-- The revalidation tag of a prop resolution result. -/
def StaticPropsResult.revalidateField : StaticPropsResult → Option Nat
  | .notFound => none
  | .props _ _ r => r

/-- Whether a prop resolution result is a props bundle. -/
def StaticPropsResult.isPropsBundle : StaticPropsResult → Bool
  | .notFound => false
  | .props _ _ _ => true

/-- getStaticProps: a missing or empty slug is not found; a failed or
thrown website fetch is not found; a failed terms of service fetch still
yields a props bundle with a null terms of service and no revalidate
field (source line 262); a thrown terms of service fetch reaches the
catch and is not found; on success the bundle carries the row and the
18000 second revalidation interval. -/
def getStaticProps (slug : Option String) (websiteFetch : FetchOne WebsiteRow)
    (tosFetch : FetchOne TermsOfServiceRow) : StaticPropsResult :=
  match slug with
  | none => .notFound
  | some s =>
    if s == "" then .notFound
    else
      match websiteFetch with
      | .err _ => .notFound
      | .threw _ => .notFound
      | .ok website =>
        match tosFetch with
        | .err _ => .props website none none
        | .threw _ => .notFound
        | .ok termsOfService => .props website (some termsOfService) (some 18000)

/-! ## The listing grid (WebsiteTileGrid component) -/

/-- Entity record of the website listing (type website in the source):
slug, title, description and logo, as read by WebsiteTileGrid. -/
structure website where
  slug : String
  title : String
  description : String
  logo : String

/-- One link card of the grid, linking to the detail route of the
slug. -/
def websiteCardNode (p : website) : Node :=
  .elem "Link" [("href", "/websites/" ++ p.slug)]
    [.elem "a" [("className", "")]
      [.elem "div"
        [("className",
          "bg-scale-100 dark:bg-scale-300 hover:bg-scale-200 hover:dark:bg-scale-400 group flex flex-col w-full h-full px-6 py-6 transition-all border rounded shadow hover:shadow-lg")]
        [.elem "div" [("className", "flex w-full space-x-6")]
          [.elem "div"
            [("className", "w-10 h-10 transition-all scale-100 group-hover:scale-110")]
            [.elem "Image"
              [("layout", "fixed"), ("width", "40"), ("height", "40"),
               ("className", "w-10 h-10 bg-gray-300 rounded-full"),
               ("src", p.logo), ("alt", p.title)] []],
           .elem "div" []
             [.elem "h3"
               [("className",
                 "transition-colors text-xl text-scale-1100 group-hover:text-scale-1200 mb-2")]
               [.text p.title],
              .elem "p" [("className", "text-sm text-scale-900")] [.text p.description]]]]]]

/-- One category section: the category header unless categories are
hidden, then the responsive grid of cards. -/
def categorySection (hideCategories : Bool) (category : String) (ws : List website) :
    Node :=
  .elem "div" [("key", category), ("id", category.toLower), ("className", "space-y-8")]
    ((if !hideCategories then [Node.elem "h2" [("className", "h2")] [.text category]]
      else [])
      ++ [Node.elem "div"
            [("className", "grid  gap-5 grid-cols-1 lg:grid-cols-2 xl:grid-cols-3 lg:max-w-none")]
            (ws.map websiteCardNode)])

/-- The WebsiteTileGrid component: one section per category of the
mapping, in order.  The omitted hideCategories prop is modelled as none,
picking up the default of false. -/
def WebsiteTileGrid (websitesByCategory : List (String × List website))
    (hideCategories : Option Bool) : List Node :=
  websitesByCategory.map (fun p => categorySection (hideCategories.getD false) p.1 p.2)

/-! ## Concrete fixtures used by witnesses and counterexamples -/

/-- A website row with every optional field populated and a parseable
URL. -/
def exWebsite : WebsiteRow :=
  { id := 1, site_name := "Example", website_description := "An example website",
    logo_svg := some "logo.svg", url := "https://example.com",
    category := some "Social", last_crawled := some "2024-01-01" }

/-- The well-formed payload of the testable-properties section of the
specification. -/
def goodPayload : String :=
  "\x7b\"summary\":\x7b\"scope\":\"broad\"\x7d,\"potentialDangers\":[\"data sharing\"],\"overallAssessment\":\"risky\"\x7d"

/-- A terms of service row carrying the well-formed payload. -/
def exTos : TermsOfServiceRow :=
  { id := 7, website_id := 1, tos_url := some "https://example.com/tos",
    simplified_content := some goodPayload }

/-- A website row whose url the URL constructor rejects. -/
def wBadUrl : WebsiteRow :=
  { id := 2, site_name := "Bad", website_description := "Bad url", logo_svg := none,
    url := "not a url", category := none, last_crawled := none }

/-- A terms of service row whose payload decodes to an object missing
all three expected fields. -/
def tosEmptyObj : TermsOfServiceRow :=
  { id := 8, website_id := 1, tos_url := none, simplified_content := some "\x7b\x7d" }

/-- A terms of service row whose payload is not JSON. -/
def tosBadJson : TermsOfServiceRow :=
  { id := 9, website_id := 1, tos_url := none, simplified_content := some "\x7bnot json" }

/-! ## Properties of first-seen de-duplication -/

/-- Boolean membership of the seen accumulator agrees with list
membership. -/
theorem contains_eq_true_iff_mem {l : List String} {x : String} :
    l.contains x = true ↔ x ∈ l := by
  simp only [List.contains, List.elem_iff]

/-- Values produced by the de-duplication come from the input list. -/
theorem mem_of_mem_dedupFirstAux :
    ∀ (l seen : List String) (x : String), x ∈ dedupFirstAux seen l → x ∈ l
  | [], _, _, h => by simp [dedupFirstAux] at h
  | a :: rest, seen, x, h => by
    by_cases hc : seen.contains a = true
    · simp only [dedupFirstAux, if_pos hc] at h
      exact List.mem_cons_of_mem a (mem_of_mem_dedupFirstAux rest seen x h)
    · simp only [dedupFirstAux, if_neg hc] at h
      rcases List.mem_cons.mp h with h | h
      · exact h ▸ List.mem_cons_self a rest
      · exact List.mem_cons_of_mem a (mem_of_mem_dedupFirstAux rest (a :: seen) x h)

/-- Values recorded as already seen are never produced again. -/
theorem not_mem_dedupFirstAux_of_mem_seen :
    ∀ (l seen : List String) (x : String), x ∈ seen → x ∉ dedupFirstAux seen l
  | [], _, _, _ => by simp [dedupFirstAux]
  | a :: rest, seen, x, hx => by
    by_cases hc : seen.contains a = true
    · simp only [dedupFirstAux, if_pos hc]
      exact not_mem_dedupFirstAux_of_mem_seen rest seen x hx
    · simp only [dedupFirstAux, if_neg hc]
      intro h
      rcases List.mem_cons.mp h with h | h
      · subst h
        exact hc (contains_eq_true_iff_mem.mpr hx)
      · exact not_mem_dedupFirstAux_of_mem_seen rest (a :: seen) x
          (List.mem_cons_of_mem a hx) h

/-- The de-duplicated list has no duplicates. -/
theorem nodup_dedupFirstAux : ∀ (l seen : List String), (dedupFirstAux seen l).Nodup
  | [], _ => by simp [dedupFirstAux]
  | a :: rest, seen => by
    by_cases hc : seen.contains a = true
    · simp only [dedupFirstAux, if_pos hc]
      exact nodup_dedupFirstAux rest seen
    · simp only [dedupFirstAux, if_neg hc]
      exact List.nodup_cons.mpr
        ⟨not_mem_dedupFirstAux_of_mem_seen rest (a :: seen) a (List.mem_cons_self a seen),
         nodup_dedupFirstAux rest (a :: seen)⟩

/-- Every unseen input value is produced. -/
theorem mem_dedupFirstAux_of_mem :
    ∀ (l seen : List String) (x : String), x ∈ l → x ∉ seen → x ∈ dedupFirstAux seen l
  | [], _, _, hx, _ => by simp at hx
  | a :: rest, seen, x, hx, hseen => by
    by_cases hxa : x = a
    · subst hxa
      by_cases hc : seen.contains x = true
      · exact absurd (contains_eq_true_iff_mem.mp hc) hseen
      · simp only [dedupFirstAux, if_neg hc]
        exact List.mem_cons_self x _
    · rcases List.mem_cons.mp hx with h | h
      · exact absurd h hxa
      · by_cases hc : seen.contains a = true
        · simp only [dedupFirstAux, if_pos hc]
          exact mem_dedupFirstAux_of_mem rest seen x h hseen
        · simp only [dedupFirstAux, if_neg hc]
          refine List.mem_cons_of_mem a (mem_dedupFirstAux_of_mem rest (a :: seen) x h ?_)
          intro hmem
          rcases List.mem_cons.mp hmem with h2 | h2
          · exact hxa h2
          · exact hseen h2

/-! ## Claims about path discovery -/

/-- C1: every route key returned by getStaticPaths is the trimmed name
of some fetched row and is non-empty, the route keys contain no
duplicates, and a name whose trimmed slug is non-empty contributes
exactly one route key, even when several rows trim to the same slug. -/
theorem c1_route_keys (names : List String) :
    (∀ s ∈ (getStaticPaths (.rows names)).paths, s ≠ "" ∧ ∃ n ∈ names, s = jsTrim n)
    ∧ (getStaticPaths (.rows names)).paths.Nodup
    ∧ (∀ n ∈ names, jsTrim n ≠ "" →
        (getStaticPaths (.rows names)).paths.count (jsTrim n) = 1) := by
  refine ⟨?_, ?_, ?_⟩
  · intro s hs
    simp only [getStaticPaths, dedupFirst] at hs
    have hs2 := mem_of_mem_dedupFirstAux _ _ _ hs
    simp only [List.mem_filter, List.mem_map] at hs2
    obtain ⟨⟨n, hn, rfl⟩, hne⟩ := hs2
    exact ⟨by simpa using hne, n, hn, rfl⟩
  · exact nodup_dedupFirstAux _ _
  · intro n hn hne
    have hmem : jsTrim n ∈ (getStaticPaths (.rows names)).paths := by
      simp only [getStaticPaths, dedupFirst]
      refine mem_dedupFirstAux_of_mem _ _ _ ?_ (by simp)
      simp only [List.mem_filter, List.mem_map]
      exact ⟨⟨n, hn, rfl⟩, by simpa using hne⟩
    exact List.count_eq_one_of_mem (nodup_dedupFirstAux _ _) hmem

/-- C1 witness: a fetch with a duplicate slug and an all-whitespace name
produces the duplicated slug exactly once. -/
theorem c1_route_keys_witness :
    (getStaticPaths (.rows ["a", " a ", "", "b"])).paths.count (jsTrim " a ") = 1 :=
  (c1_route_keys ["a", " a ", "", "b"]).2.2 " a " (by simp) (by decide)

/-- C6: every fetch error, null data set, empty row set and thrown
exception degrades to the empty route set with the blocking fallback,
and the fallback flag is blocking on every branch, success included. -/
theorem c6_failure_degrades_to_empty_routes :
    (∀ msg, getStaticPaths (.fetchError msg) = { paths := [], fallback := "blocking" })
    ∧ getStaticPaths .noData = { paths := [], fallback := "blocking" }
    ∧ getStaticPaths (.rows []) = { paths := [], fallback := "blocking" }
    ∧ (∀ msg, getStaticPaths (.threw msg) = { paths := [], fallback := "blocking" })
    ∧ (∀ outcome, (getStaticPaths outcome).fallback = "blocking") := by
  refine ⟨fun _ => rfl, rfl, rfl, fun _ => rfl, fun outcome => ?_⟩
  cases outcome <;> rfl

/-- C6 witness: the fallback flag of a concrete failed fetch. -/
theorem c6_failure_degrades_to_empty_routes_witness :
    (getStaticPaths (.fetchError "connection refused")).fallback = "blocking" :=
  c6_failure_degrades_to_empty_routes.2.2.2.2 (.fetchError "connection refused")

/-! ## Claims about per-route prop resolution -/

/-- C3: when a slug is supplied, the website fetch succeeds and the
terms of service fetch errors, prop resolution returns a props bundle
carrying the website with a null terms of service field, not the
not-found signal. -/
theorem c3_partial_failure_keeps_props (slug : String) (w : WebsiteRow) (e : String)
    (hs : slug ≠ "") :
    getStaticProps (some slug) (.ok w) (.err e) = .props w none none
    ∧ (getStaticProps (some slug) (.ok w) (.err e)).isPropsBundle = true := by
  have hbeq : (slug == "") = false := beq_eq_false_iff_ne.mpr hs
  exact ⟨by simp [getStaticProps, hbeq],
    by simp [getStaticProps, hbeq, StaticPropsResult.isPropsBundle]⟩

/-- C3 witness: the partial-failure bundle at a concrete slug and
website. -/
theorem c3_partial_failure_keeps_props_witness :
    getStaticProps (some "Example") (.ok exWebsite) (.err "row not found")
      = .props exWebsite none none :=
  (c3_partial_failure_keeps_props "Example" exWebsite "row not found" (by decide)).1

/-- C4 counterexample: the bundle returned on the terms of service
partial-failure path is a props bundle, yet its revalidate field is
absent rather than 18000, refuting the claim that every props bundle is
tagged with the 18000 second interval. -/
theorem c4_counterexample :
    (getStaticProps (some "Example") (.ok exWebsite) (.err "db error")).isPropsBundle = true
    ∧ (getStaticProps (some "Example") (.ok exWebsite) (.err "db error")).revalidateField
        = none
    ∧ (getStaticProps (some "Example") (.ok exWebsite) (.err "db error")).revalidateField
        ≠ some 18000 :=
  ⟨rfl, rfl, by decide⟩

/-- C4 amended: the props bundle of the success path is tagged with the
fixed 18000 second revalidation interval, while the bundle of the terms
of service partial-failure path carries no revalidate field. -/
theorem c4_revalidate_policy (slug : String) (w : WebsiteRow) (t : TermsOfServiceRow)
    (e : String) (hs : slug ≠ "") :
    (getStaticProps (some slug) (.ok w) (.ok t)).revalidateField = some 18000
    ∧ (getStaticProps (some slug) (.ok w) (.err e)).revalidateField = none := by
  have hbeq : (slug == "") = false := beq_eq_false_iff_ne.mpr hs
  constructor <;> simp [getStaticProps, hbeq, StaticPropsResult.revalidateField]

/-- C4 amended witness: both branches at a concrete slug, website and
terms of service row. -/
theorem c4_revalidate_policy_witness :
    (getStaticProps (some "Example") (.ok exWebsite) (.ok exTos)).revalidateField
      = some 18000 :=
  (c4_revalidate_policy "Example" exWebsite exTos "db error" (by decide)).1

/-! ## Helper lemmas about the page renderer -/

/-- The page result when both columns evaluate without throwing. -/
theorem websitePage_eq_of_ok (w : WebsiteRow) (tos : Option TermsOfServiceRow)
    (ov dt : Node)
    (hov : overviewSection
        (parseSimplifiedContent (tos.bind (fun t => t.simplified_content))) = .ok ov)
    (hdt : detailsPanel w tos = .ok dt) :
    WebsitePage (some w) tos = .ok (pageNode w ov dt) := by
  simp only [WebsitePage, hov, hdt]

/-! ## Claim C2: malformed payloads degrade to the placeholder -/

/-- C2: a serialized payload on which JSON.parse throws leaves the
parsed content null instead of propagating the exception, and for a
website whose url parses the page renders with the loading placeholder
overview instead of throwing. -/
theorem c2_malformed_payload_placeholder (w : WebsiteRow) (t : TermsOfServiceRow)
    (s host : String)
    (hcontent : t.simplified_content = some s)
    (hmal : throws (jsonParse s) = true)
    (hurl : urlHost w.url = some host) :
    parseSimplifiedContent (some s) = none
    ∧ WebsitePage (some w) (some t)
        = .ok (pageNode w (proseDiv [loadingPlaceholder]) (detailsColumnNode w (some t) host))
    ∧ containsText "Loading content..." (proseDiv [loadingPlaceholder]) = true := by
  have hparse : parseSimplifiedContent (some s) = none := by
    simp only [parseSimplifiedContent]
    cases hbe : s == "" with
    | true => simp [hbe]
    | false =>
      simp only [hbe, Bool.false_eq_true, if_false]
      cases hjson : jsonParse s with
      | ok v => rw [hjson] at hmal; exact absurd hmal (by simp [throws])
      | error e => simp [hjson]
  have hbind : (Option.some t).bind (fun r => r.simplified_content) = some s := by
    simp [hcontent]
  have hov : overviewSection
      (parseSimplifiedContent ((Option.some t).bind (fun r => r.simplified_content)))
      = .ok (proseDiv [loadingPlaceholder]) := by
    rw [hbind, hparse]
    rfl
  have hdt : detailsPanel w (some t) = .ok (detailsColumnNode w (some t) host) := by
    unfold detailsPanel
    rw [hurl]
  exact ⟨hparse, websitePage_eq_of_ok w (some t) _ _ hov hdt, rfl⟩

/-- C2 witness: the concrete malformed payload at a concrete website and
terms of service row. -/
theorem c2_malformed_payload_placeholder_witness :
    parseSimplifiedContent (some "\x7bnot json") = none :=
  (c2_malformed_payload_placeholder exWebsite tosBadJson "\x7bnot json" "example.com"
    (by rfl) (by rfl) (by rfl)).1

/-! ## Claim C5: totality of the renderer -/

/-- C5 counterexample: rendering throws for a website record whose url
the URL constructor rejects, and also for a decoded payload missing the
expected fields, refuting the claimed totality on all inputs. -/
theorem c5_counterexample :
    WebsitePage (some wBadUrl) none = .error "Invalid URL"
    ∧ WebsitePage (some exWebsite) (some tosEmptyObj)
        = .error "Cannot convert undefined or null to object" :=
  ⟨rfl, rfl⟩

/-- A decoded value shaped like the SimplifiedContent interface: a
summary object of string values, an array of string dangers and a string
overall assessment. -/
def wellFormedSC (v : JsValue) : Bool :=
  (match v.get "summary" with
   | some (.obj sf) => sf.all (fun kv => match kv.2 with | .str _ => true | _ => false)
   | _ => false)
  && (match v.get "potentialDangers" with
      | some (.arr ds) => ds.all (fun d => match d with | .str _ => true | _ => false)
      | _ => false)
  && (match v.get "overallAssessment" with
      | some (.str _) => true
      | _ => false)

/-- A parse outcome the overview can display without throwing: absent or
falsy content (the placeholder path) or a well-formed
SimplifiedContent. -/
def renderableSC : Option JsValue → Bool
  | none => true
  | some v => !v.truthy || wellFormedSC v

/-- Summary entries of string values render without throwing. -/
theorem renderSummaryEntries_ok :
    ∀ sf : List (String × JsValue),
      sf.all (fun kv => match kv.2 with | .str _ => true | _ => false) = true →
      ∃ ns, renderSummaryEntries sf = .ok ns
  | [], _ => ⟨[], rfl⟩
  | (k, v) :: rest, h => by
    simp only [List.all_cons, Bool.and_eq_true] at h
    obtain ⟨hv, hrest⟩ := h
    obtain ⟨ns, hns⟩ := renderSummaryEntries_ok rest hrest
    match v, hv with
    | .str sv, _ =>
      refine ⟨summaryEntryNode k [.text sv] :: ns, ?_⟩
      simp only [renderSummaryEntries, reactChild, hns]

/-- Danger arrays of string values render without throwing. -/
theorem renderDangerItems_ok :
    ∀ (ds : List JsValue) (i : Nat),
      ds.all (fun d => match d with | .str _ => true | _ => false) = true →
      ∃ ns, renderDangerItems i ds = .ok ns
  | [], _, _ => ⟨[], rfl⟩
  | v :: rest, i, h => by
    simp only [List.all_cons, Bool.and_eq_true] at h
    obtain ⟨hv, hrest⟩ := h
    obtain ⟨ns, hns⟩ := renderDangerItems_ok rest (i + 1) hrest
    match v, hv with
    | .str sv, _ =>
      refine ⟨dangerItemNode i [.text sv] :: ns, ?_⟩
      simp only [renderDangerItems, reactChild, hns]

/-- The overview column never throws on a renderable parse outcome. -/
theorem overviewSection_ok_of_renderable (o : Option JsValue)
    (h : renderableSC o = true) : ∃ n, overviewSection o = .ok n := by
  match o with
  | none => exact ⟨_, rfl⟩
  | some v =>
    by_cases ht : v.truthy = true
    · have hwf : wellFormedSC v = true := by
        simp only [renderableSC, Bool.or_eq_true] at h
        rcases h with h | h
        · rw [ht] at h
          simp at h
        · exact h
      simp only [wellFormedSC, Bool.and_eq_true] at hwf
      obtain ⟨⟨h1, h2⟩, h3⟩ := hwf
      cases hsum : v.get "summary" with
      | none => rw [hsum] at h1; cases h1
      | some sv =>
        rw [hsum] at h1
        cases sv with
        | null => cases h1
        | bool b => cases h1
        | num lex => cases h1
        | str s1 => cases h1
        | arr xs => cases h1
        | obj sf =>
          cases hdang : v.get "potentialDangers" with
          | none => rw [hdang] at h2; cases h2
          | some dv =>
            rw [hdang] at h2
            cases dv with
            | null => cases h2
            | bool b => cases h2
            | num lex => cases h2
            | str s2 => cases h2
            | obj g => cases h2
            | arr ds =>
              cases hass : v.get "overallAssessment" with
              | none => rw [hass] at h3; cases h3
              | some av =>
                rw [hass] at h3
                cases av with
                | null => cases h3
                | bool b => cases h3
                | num lex => cases h3
                | arr ys => cases h3
                | obj g => cases h3
                | str s3 =>
                  obtain ⟨sns, hsns⟩ := renderSummaryEntries_ok sf h1
                  obtain ⟨dns, hdns⟩ := renderDangerItems_ok ds 0 h2
                  refine ⟨proseDiv
                    ([Node.elem "h3" [] [.text "Summary"]] ++ sns
                      ++ [Node.elem "h3" [] [.text "Potential Dangers"],
                          Node.elem "ul" [] dns,
                          Node.elem "h3" [] [.text "Overall Assessment"],
                          Node.elem "p" [] [.text s3]]), ?_⟩
                  simp only [overviewSection]
                  rw [if_pos ht]
                  simp only [hsum, jsObjectEntries, hsns, hdang, renderDangers, hdns,
                    hass, reactChildOpt, reactChild]
    · refine ⟨proseDiv [loadingPlaceholder], ?_⟩
      simp only [overviewSection]
      rw [if_neg ht]

/-- C5 amended: the detail page renderer never throws for a website
record whose url the URL constructor accepts when the payload is absent,
malformed, falsy or decodes to a well-formed SimplifiedContent, and a
missing website record renders the not-found view; totality does not
extend to unparseable urls or to decoded payloads missing the expected
fields. -/
theorem c5_render_total_when_renderable (w : WebsiteRow) (tos : Option TermsOfServiceRow)
    (host : String)
    (hurl : urlHost w.url = some host)
    (hsc : renderableSC
        (parseSimplifiedContent (tos.bind (fun t => t.simplified_content))) = true) :
    throws (WebsitePage (some w) tos) = false
    ∧ throws (WebsitePage none tos) = false := by
  obtain ⟨ov, hov⟩ := overviewSection_ok_of_renderable _ hsc
  have hdt : detailsPanel w tos = .ok (detailsColumnNode w tos host) := by
    unfold detailsPanel
    rw [hurl]
  rw [websitePage_eq_of_ok w tos ov _ hov hdt]
  exact ⟨rfl, rfl⟩

/-- C5 amended witness: the renderer at a concrete website and
well-formed payload. -/
theorem c5_render_total_when_renderable_witness :
    throws (WebsitePage (some exWebsite) (some exTos)) = false :=
  (c5_render_total_when_renderable exWebsite (some exTos) "example.com"
    (by rfl) (by rfl)).1

/-! ## Claim C7: display of a concrete well-formed payload -/

/-- Recognizer of a summary entry paragraph with the given label and
string value. -/
def isSummaryEntry (label value : String) (n : Node) : Bool :=
  match n with
  | .elem "p" _ [.elem "strong" _ [.text l, .text c], .text sp, .text v] =>
    l == label && c == ":" && sp == " " && v == value
  | _ => false

/-- Recognizer of a danger list item with the given string value. -/
def isListItem (value : String) (n : Node) : Bool :=
  match n with
  | .elem "li" _ [.text v] => v == value
  | _ => false

/-- Recognizer of an assessment paragraph with the given string
value. -/
def isAssessmentPara (value : String) (n : Node) : Bool :=
  match n with
  | .elem "p" [] [.text v] => v == value
  | _ => false

/-- C7: the well-formed payload with the scope section, the data sharing
danger and the risky assessment renders a page displaying the scope
label with its value, the danger list item and the assessment text. -/
theorem c7_good_payload_display :
    (WebsitePage (some exWebsite) (some exTos)).toOption.map
      (fun n =>
        containsNode (isSummaryEntry "scope" "broad") n
        && containsNode (isListItem "data sharing") n
        && containsNode (isAssessmentPara "risky") n) = some true := by
  rfl

/-! ## Claim C8: the details panel rows -/

/-- Label of a details panel row: the text of its leading span. -/
def rowLabel : Node → Option String
  | .elem "div" _ (.elem "span" _ [.text l] :: _) => some l
  | _ => none

/-- Recognizer of the Terms of Service row whose anchor carries the
given link target. -/
def isTosLinkRow (href : String) (n : Node) : Bool :=
  match n with
  | .elem "div" _ [.elem "span" _ [.text l], .elem "a" attrs _] =>
    l == "Terms of Service" && attrs.contains ("href", href)
  | _ => false

/-- C8 counterexample: rendering a website with no terms of service
record still produces the Terms of Service link row, with an empty link
target, refuting the claim that the link is rendered only if a record is
present. -/
theorem c8_counterexample :
    (WebsitePage (some exWebsite) none).toOption.map
      (fun n => containsNode (isTosLinkRow "") n) = some true := by
  rfl

/-- C8 amended: for every website whose url the URL constructor accepts,
the details panel renders the Website row and the Terms of Service link
row unconditionally — the link target being the record url when present
and empty otherwise — the Category row exactly when the category field
is truthy, and the Last Crawled row exactly when the timestamp field is
truthy, its value formatted as a locale date string. -/
theorem c8_details_rows (w : WebsiteRow) (tos : Option TermsOfServiceRow) (host : String)
    (hurl : urlHost w.url = some host) :
    detailsPanel w tos = .ok (detailsColumnNode w tos host)
    ∧ (detailRows w tos host).filterMap rowLabel
        = ["Website", "Terms of Service"]
          ++ (if truthyOptStr w.category then ["Category"] else [])
          ++ (if truthyOptStr w.last_crawled then ["Last Crawled"] else [])
    ∧ websiteRowNode w.url host ∈ detailRows w tos host
    ∧ tosRowNode (tosHref tos) ∈ detailRows w tos host
    ∧ (truthyOptStr w.last_crawled = true →
        lastCrawledRowNode (toLocaleDateString (w.last_crawled.getD ""))
          ∈ detailRows w tos host) := by
  refine ⟨by unfold detailsPanel; rw [hurl], ?_, ?_, ?_, ?_⟩
  · by_cases hc : truthyOptStr w.category = true <;>
      by_cases hl : truthyOptStr w.last_crawled = true <;>
        simp [detailRows, hc, hl, rowLabel, websiteRowNode, tosRowNode,
          categoryRowNode, lastCrawledRowNode]
  · simp [detailRows]
  · simp [detailRows]
  · intro hl
    simp [detailRows, hl]

/-- C8 amended witness: the rows of a concrete website with category and
timestamp set, rendered without a terms of service record. -/
theorem c8_details_rows_witness :
    (detailRows exWebsite none "example.com").filterMap rowLabel
      = ["Website", "Terms of Service", "Category", "Last Crawled"] := by
  rw [(c8_details_rows exWebsite none "example.com" (by rfl)).2.1]
  rfl

/-! ## Claim C9: the grid with hidden categories -/

/-- A link card contains no category header. -/
theorem countElems_h2_card (t : website) : countElems "h2" (websiteCardNode t) = 0 := rfl

/-- A link card carries exactly its detail route link. -/
theorem collectLinkHrefs_card (t : website) :
    collectLinkHrefs (websiteCardNode t) = ["/websites/" ++ t.slug] := rfl

/-- The cards of one grid contain no category header. -/
theorem countElems_h2_cards (ts : List website) :
    countElemsList "h2" (ts.map websiteCardNode) = 0 := by
  induction ts with
  | nil => rfl
  | cons t ts ih => simp [countElemsList, countElems_h2_card, ih]

/-- The cards of one grid link exactly to the detail routes of the
entity slugs, in order. -/
theorem collectLinkHrefs_cards (ts : List website) :
    collectLinkHrefsList (ts.map websiteCardNode) = ts.map (fun t => "/websites/" ++ t.slug) := by
  induction ts with
  | nil => rfl
  | cons t ts ih => simp [collectLinkHrefsList, collectLinkHrefs_card, ih]

/-- A category section with hidden categories contains no category
header element. -/
theorem countElems_h2_section (c : String) (ts : List website) :
    countElems "h2" (categorySection true c ts) = 0 := by
  simp [categorySection, countElems, countElemsList, countElems_h2_cards]

/-- A category section with hidden categories still carries the detail
route link of every entity, in order. -/
theorem collectLinkHrefs_section (c : String) (ts : List website) :
    collectLinkHrefs (categorySection true c ts)
      = ts.map (fun t => "/websites/" ++ t.slug) := by
  simp [categorySection, collectLinkHrefs, collectLinkHrefsList, collectLinkHrefs_cards]

/-- C9: with hideCategories set, the rendered grid contains no category
header element, and still renders one link card per entity record of
every category, each linking to the detail route of the entity slug. -/
theorem c9_hide_categories (m : List (String × List website)) :
    countElemsList "h2" (WebsiteTileGrid m (some true)) = 0
    ∧ collectLinkHrefsList (WebsiteTileGrid m (some true))
        = m.flatMap (fun p => p.2.map (fun t => "/websites/" ++ t.slug)) := by
  induction m with
  | nil => exact ⟨rfl, rfl⟩
  | cons p rest ih =>
    obtain ⟨ih1, ih2⟩ := ih
    simp only [WebsiteTileGrid, Option.getD_some, List.map_cons] at ih1 ih2 ⊢
    constructor
    · simp [countElemsList, countElems_h2_section, ih1]
    · simp [collectLinkHrefsList, collectLinkHrefs_section, ih2]

/-- C9 witness: a concrete one-category grid with hidden categories. -/
theorem c9_hide_categories_witness :
    collectLinkHrefsList
      (WebsiteTileGrid [("Social", [{ slug := "s1", title := "T", description := "D", logo := "L" }])]
        (some true))
      = ["/websites/s1"] := by
  rw [(c9_hide_categories
    [("Social", [{ slug := "s1", title := "T", description := "D", logo := "L" }])]).2]
  rfl

/-! ## Claim C10: layout defaults -/

/-- Element counting distributes over concatenation of children. -/
theorem countElemsList_append (tag : String) (a b : List Node) :
    countElemsList tag (a ++ b) = countElemsList tag a + countElemsList tag b := by
  induction a with
  | nil => simp [countElemsList]
  | cons x xs ih => simp [countElemsList, ih]; omega

/-- C10: the layout adds no footer when the hideFooter prop is omitted
(the default hides it) or true, adds it exactly when the caller passes
false, and adds the navigation header when hideHeader is omitted (the
default shows it) or false, suppressing it only when true. -/
theorem c10_layout_defaults (hh hf : Option Bool) (cs : List Node) :
    countElems "Footer" (Layout hh none cs) = countElemsList "Footer" cs
    ∧ countElems "Footer" (Layout hh (some true) cs) = countElemsList "Footer" cs
    ∧ countElems "Footer" (Layout hh (some false) cs) = countElemsList "Footer" cs + 1
    ∧ countElems "Nav" (Layout none hf cs) = countElemsList "Nav" cs + 1
    ∧ countElems "Nav" (Layout (some false) hf cs) = countElemsList "Nav" cs + 1
    ∧ countElems "Nav" (Layout (some true) hf cs) = countElemsList "Nav" cs := by
  rcases hh with _ | (_ | _) <;> rcases hf with _ | (_ | _) <;>
    refine ⟨?_, ?_, ?_, ?_, ?_, ?_⟩ <;>
      simp [Layout, countElems, countElemsList, countElemsList_append] <;>
        omega

/-- C10 witness: a concrete layout call with both props omitted renders
no footer. -/
theorem c10_layout_defaults_witness :
    countElems "Footer" (Layout none none []) = 0 :=
  (c10_layout_defaults none none []).1

end TosBuddy
